import Mathlib

/-!
Verification of the proka-kernel VFS layer
(`src/kernel/src/fs/vfs.rs`, `src/kernel/src/fs/memfs.rs`,
`src/kernel/src/fs/kernfs.rs`, `src/kernel/src/drivers/device.rs`).

Shallow-embedding conventions:
* Rust machine integers (`u16`, `u32`, `u64`, `usize`) become `Nat`; the VFS
  code only compares, adds small counts, and indexes with them, so no
  wrap-around is observable in the modelled operations.
* Rust `String`/`&str` path data is processed at the character-list level
  (`String.data`); kernel paths are ASCII, where Rust's byte indexing and
  character indexing coincide.
* `BTreeMap<String, _>` directory maps become association lists looked up by
  exact key; `Arc`/`RwLock` shared mutable state becomes explicit state
  passing (functions return the updated values of whatever the Rust code
  mutates in place).
* Fallible Rust functions returning `Result<T, VfsError>` become
  `Except VfsError T`.
-/

namespace ProkaVfs

/-- `drivers/device.rs` `DeviceType`. -/
inductive DeviceType where
  | Block
  | Char
  deriving DecidableEq, Repr

/-- `drivers/device.rs` `DeviceError` (the variants of the enum). -/
inductive DeviceError where
  | InvalidParam
  | NotSupported
  | IoError
  | PermissionsDenied
  | NoSuchDevice
  | WouldBlock
  | Busy
  | OutOfMemory
  | DeviceClosed
  | BufferTooSmall
  | AlreadyOpen
  | NotOpen
  | AddressOutOfRange
  | DeviceAlreadyRegistered
  | DeviceNumberConflict
  | DeviceNotRegistered
  | DeviceStillInUse
  deriving DecidableEq, Repr

/-- `fs/vfs.rs` lines 22-49, `VfsError`.

The two final variants `DeviceNotFound` and `NotSupported` are *not* declared
by the `vfs.rs` enum, but `fs/memfs.rs` names `VfsError::DeviceNotFound`
(lines 176, 255) and `VfsError::NotSupported` (lines 501, 511); the `fs`
module is not wired into the crate in this snapshot, so the omission is a
latent slip in the declaration.  They are included here so that the memfs
operations that name them are expressible. -/
inductive VfsError where
  | NotFound
  | AlreadyExists
  | NotADirectory
  | NotAFile
  | PermissionDenied
  | DeviceError (e : DeviceError)
  | InvalidArgument
  | IoError
  | MaxSymlinkDepth
  | FsTypeNotSupported
  | EmptyPath
  | NotImplemented
  | DirectoryNotEmpty
  | DeviceNotFound
  | NotSupported
  deriving DecidableEq, Repr

/-- `fs/vfs.rs` lines 61-70, `VNodeType`. -/
inductive VNodeType where
  | File
  | Dir
  | SymLink
  | Device
  deriving DecidableEq, Repr

/-- `fs/vfs.rs` lines 74-91, `Metadata` (all numeric fields). -/
structure Metadata where
  size : Nat
  permissions : Nat
  uid : Nat
  gid : Nat
  ctime : Nat
  mtime : Nat
  blocks : Nat
  nlinks : Nat
  deriving DecidableEq, Repr

/-- `u64::div_ceil(512)` as used for the `blocks` field. -/
def blocksOf (size : Nat) : Nat := (size + 511) / 512

/-- `fs/memfs.rs` lines 20-37, `create_metadata`. -/
def createMetadata (nodeType : VNodeType) (size : Nat) : Metadata :=
  let permissions : Nat :=
    match nodeType with
    | .Dir => 0o755
    | .File => 0o644
    | .SymLink => 0o777
    | .Device => 0o600
  { size := size
    permissions := permissions
    uid := 0
    gid := 0
    ctime := 0
    mtime := 0
    blocks := blocksOf size
    nlinks := 1 }

/-! ## The `MemFile` open-handle state machine (`fs/memfs.rs` lines 370-471)

A `MemFile` couples a private cursor (`Mutex<u64>`), a handle-local *clone*
of the inode's metadata (`RwLock<Metadata>`, built in `MemVNode::open`,
lines 157-166), and a reference to the shared byte buffer
(`Arc<RwLock<Vec<u8>>>`).  The shared buffer contents are threaded through
the operations explicitly as a `List Nat` of bytes. -/

structure MemFileHandle where
  cursor : Nat
  hmeta : Metadata
  deriving DecidableEq, Repr

/-- The `MemNodeContent::File` state of a `MemVNode`: the shared buffer plus
the metadata stored in the inode itself (`MemVNode.metadata`). -/
structure MemFileInode where
  data : List Nat
  imeta : Metadata
  deriving DecidableEq, Repr

/-- A freshly created `MemFs` file (`MemVNode::create`, `VNodeType::File`
arm, lines 210-215: empty buffer, `create_metadata(File, 0)`). -/
def freshFileInode : MemFileInode :=
  { data := [], imeta := createMetadata .File 0 }

/-- `fs/memfs.rs` lines 153-155, `MemVNode::metadata`: returns a clone of the
stored metadata, with no recomputation. -/
def memVNodeMetadata (ino : MemFileInode) : Metadata := ino.imeta

/-- `fs/memfs.rs` lines 157-166, the `File` arm of `MemVNode::open`: a fresh
`MemFile` with cursor 0 and a clone of the inode's stored metadata. -/
def memVNodeOpenFile (ino : MemFileInode) : MemFileHandle :=
  { cursor := 0, hmeta := ino.imeta }

/-- `fs/memfs.rs` lines 392-398, `MemFile::update_metadata`. -/
def metaWithSize (m : Metadata) (newSize : Nat) : Metadata :=
  { m with size := newSize, blocks := blocksOf newSize }

/-- `fs/memfs.rs` lines 403-419, `MemFile::read`: at/after EOF return 0;
otherwise copy `min(len - cursor, buf.len())` bytes and advance the cursor.
Returns (new handle, count, bytes copied out). -/
def memFileRead (data : List Nat) (h : MemFileHandle) (buflen : Nat) :
    MemFileHandle × Nat × List Nat :=
  if h.cursor ≥ data.length then (h, 0, [])
  else
    let n := min (data.length - h.cursor) buflen
    ({ h with cursor := h.cursor + n }, n, (data.drop h.cursor).take n)

/-- `fs/memfs.rs` lines 421-439, `MemFile::write`: zero-extend the buffer to
`cursor + buf.len()` if needed, splice `buf` in at the cursor, advance the
cursor, and recompute the handle's metadata from the new buffer length.
Returns (new buffer, new handle, count). -/
def memFileWrite (data : List Nat) (h : MemFileHandle) (buf : List Nat) :
    List Nat × MemFileHandle × Nat :=
  let start := h.cursor
  let padded :=
    if start + buf.length > data.length then
      data ++ List.replicate (start + buf.length - data.length) 0
    else data
  let newData := padded.take start ++ buf ++ padded.drop (start + buf.length)
  (newData,
   { cursor := start + buf.length, hmeta := metaWithSize h.hmeta newData.length },
   buf.length)

/-- `fs/memfs.rs` lines 441-446, `MemFile::seek`: sets the cursor
unconditionally (seeking past EOF is allowed). -/
def memFileSeek (h : MemFileHandle) (pos : Nat) : MemFileHandle × Nat :=
  ({ h with cursor := pos }, pos)

/-- `fs/memfs.rs` lines 448-458, `MemFile::stat`: resynchronise the handle's
metadata `size`/`blocks` with the actual buffer length, then return it. -/
def memFileStat (data : List Nat) (h : MemFileHandle) :
    MemFileHandle × Metadata :=
  if h.hmeta.size ≠ data.length then
    let m := metaWithSize h.hmeta data.length
    ({ h with hmeta := m }, m)
  else (h, h.hmeta)

/-- `fs/memfs.rs` lines 460-470, `MemFile::truncate`. -/
def memFileTruncate (data : List Nat) (h : MemFileHandle) (size : Nat) :
    List Nat × MemFileHandle :=
  let newData :=
    if size < data.length then data.take size
    else if size > data.length then
      data ++ List.replicate (size - data.length) 0
    else data
  (newData, { h with hmeta := metaWithSize h.hmeta newData.length })

/-! ## Path-string machinery (`fs/vfs.rs`)

Rust's `str::split('/')`, `str::trim_matches('/')`, `str::rsplit_once('/')`
and byte slicing are modelled at the character-list level. -/

/-- Rust `str::split(sep)` semantics on a character list: `""` yields `[[]]`,
adjacent separators yield empty segments. -/
def splitOnChar (sep : Char) : List Char → List (List Char)
  | [] => [[]]
  | c :: cs =>
    if c = sep then [] :: splitOnChar sep cs
    else
      match splitOnChar sep cs with
      | s :: ss => (c :: s) :: ss
      | [] => [[c]]

/-- Rust `str::trim_matches('/')`: strip all leading and trailing slashes. -/
def trimSlashes (s : List Char) : List Char :=
  ((s.dropWhile (· = '/')).reverse.dropWhile (· = '/')).reverse

/-- `fs/vfs.rs` lines 596-607: one step of the `normalize_path` loop over the
already-filtered parts.  On `".."` it pops the last retained segment, but
only after checking that the (guaranteed non-empty) last segment is not the
empty string — the `last != &""` guard in the source. -/
def normStep (cleaned : List (List Char)) (part : List Char) :
    List (List Char) :=
  if part = ['.', '.'] then
    match cleaned.getLast? with
    | none => cleaned
    | some last => if last ≠ [] then cleaned.dropLast else cleaned
  else cleaned ++ [part]

/-- `fs/vfs.rs` lines 591-608: split on `/`, drop empty segments and `"."`,
then run the `".."`-popping loop. -/
def vfsNormSegs (path : List Char) : List (List Char) :=
  let parts := (splitOnChar '/' path).filter (fun s => ¬(s = [] ∨ s = ['.']))
  parts.foldl normStep []

/-- `fs/vfs.rs` lines 609-613: `"/"` for the empty segment list, otherwise
`"/" ++ join("/")` — a leading slash and no trailing slash. -/
def renderPath (segs : List (List Char)) : List Char :=
  if segs = [] then ['/'] else '/' :: List.intercalate ['/'] segs

/-- `fs/vfs.rs` lines 590-614, `Vfs::normalize_path`. -/
def vfsNormalizePath (path : String) : String :=
  String.mk (renderPath (vfsNormSegs path.data))

/-- Modelled from the spec: the `".."` step as §4.2 words it — "for each
`..` segment, pop the last retained segment (clamped at the normalized root —
never pops past empty)" — i.e. an unconditional `dropLast`. -/
def specNormStep (cleaned : List (List Char)) (part : List Char) :
    List (List Char) :=
  if part = ['.', '.'] then cleaned.dropLast else cleaned ++ [part]

/-- Modelled from the spec (§4.2 step 1): split on `/`, drop empty segments
and `"."`, pop on `".."` clamped at the root, and render as a canonical
absolute path with no trailing slash except for the literal root. -/
def specNormalizePath (path : String) : String :=
  String.mk
    (renderPath
      (((splitOnChar '/' path.data).filter
          (fun s => ¬(s = [] ∨ s = ['.']))).foldl specNormStep []))

/-- Rust `str::rsplit_once(sep)`: split at the last occurrence of `sep`;
`none` when `sep` does not occur. -/
def rsplitOnce (sep : Char) : List Char → Option (List Char × List Char)
  | [] => none
  | c :: cs =>
    match rsplitOnce sep cs with
    | some (p, n) => some (c :: p, n)
    | none => if c = sep then some ([], cs) else none

/-- `fs/vfs.rs` lines 515-528, `Vfs::split_path`: trim slashes, reject the
empty path, and split into (parent path, final name); a name with no
remaining slash lives directly under `"/"`. -/
def splitPath (path : String) : Except VfsError (String × String) :=
  let p := trimSlashes path.data
  if p = [] then .error .EmptyPath
  else
    match rsplitOnce '/' p with
    | some (parent, name) =>
        .ok (if parent = [] then "/" else String.mk parent, String.mk name)
    | none => .ok ("/", String.mk p)

/-! ## The VNode tree

`dyn VNode` values are modelled as one inductive.  The four `mem*`
constructors are `MemVNode` with its `MemNodeContent` union (`fs/memfs.rs`
lines 40-64); `memFile` also carries the inode's stored metadata
(`MemVNode.metadata`).  `kernDir` models the directory variant of
`fs/kernfs.rs`'s `KernInode` — the repository's other directory-capable
inode type, which is *not* a `MemVNode` and so fails the downcast in
`Vfs::rename_move`.  (Real `MemVNode` directory maps hold only `MemVNode`
children; trees mixing the two are used solely to exercise the downcast.) -/

inductive VN where
  | memFile (data : List Nat) (meta : Metadata)
  | memDir (entries : List (String × VN))
  | memSymlink (target : String)
  | memDevice (major minor : Nat) (devType : DeviceType)
  | kernDir (entries : List (String × VN))

/-- `BTreeMap::get` on an association list: first exact-key match. -/
def childLookup (entries : List (String × VN)) (name : String) : Option VN :=
  match entries with
  | [] => none
  | (k, v) :: rest => if k = name then some v else childLookup rest name

/-- `BTreeMap::remove`: drop the (unique) entry with the given key. -/
def childErase (entries : List (String × VN)) (name : String) :
    List (String × VN) :=
  match entries with
  | [] => []
  | (k, v) :: rest =>
      if k = name then rest else (k, v) :: childErase rest name

/-- `BTreeMap::insert` of a fresh key (the callers below insert only after a
`contains_key` check, so position in the association list is immaterial). -/
def childInsert (entries : List (String × VN)) (name : String) (v : VN) :
    List (String × VN) :=
  entries ++ [(name, v)]

/-- `VNode::node_type` (`fs/memfs.rs` lines 149-151, `fs/kernfs.rs`
lines 109-111). -/
def vnNodeType : VN → VNodeType
  | .memFile .. => .File
  | .memDir .. => .Dir
  | .memSymlink .. => .SymLink
  | .memDevice .. => .Device
  | .kernDir .. => .Dir

/-- `MemVNode::lookup` (`fs/memfs.rs` lines 187-199) and `KernInode::lookup`
(`fs/kernfs.rs` lines 187-197): directory map lookup, `NotFound` if absent,
`NotADirectory` on non-directories. -/
def vnLookup (n : VN) (name : String) : Except VfsError VN :=
  match n with
  | .memDir entries =>
      match childLookup entries name with
      | some v => .ok v
      | none => .error .NotFound
  | .kernDir entries =>
      match childLookup entries name with
      | some v => .ok v
      | none => .error .NotFound
  | _ => .error .NotADirectory

/-- `MemVNode::read_symlink` (`fs/memfs.rs` lines 354-359); every other
variant (and the `VNode` trait default, `fs/vfs.rs` lines 187-189) returns
`NotAFile`. -/
def vnReadSymlink : VN → Except VfsError String
  | .memSymlink target => .ok target
  | _ => .error .NotAFile

/-- Whether the `as_any().downcast_ref::<MemVNode>()` in `Vfs::rename_move`
succeeds (`fs/vfs.rs` lines 423-426). -/
def isMemVNode : VN → Bool
  | .kernDir .. => false
  | _ => true

/-- `MemVNode::remove` (`fs/memfs.rs` lines 295-320): on a directory, fail
`DirectoryNotEmpty` if the named child is a directory with a non-empty entry
map, otherwise remove the entry; `NotFound` if absent; `NotADirectory` on
non-directory parents.  On success the updated parent is returned; on error
the map is untouched. -/
def memRemove (parent : VN) (name : String) : Except VfsError VN :=
  match parent with
  | .memDir entries =>
      match childLookup entries name with
      | some child =>
          match child with
          | .memDir subEntries =>
              if subEntries.isEmpty then .ok (.memDir (childErase entries name))
              else .error .DirectoryNotEmpty
          | _ => .ok (.memDir (childErase entries name))
      | none => .error .NotFound
  | _ => .error .NotADirectory

/-- `MemVNode::rename` (`fs/memfs.rs` lines 322-352): same-directory rename.
`kernDir` (not a `MemVNode`) gets the `VNode` trait default,
`NotImplemented` (`fs/vfs.rs` lines 182-185). -/
def vnRename (parent : VN) (oldName newName : String) :
    Except VfsError VN :=
  match parent with
  | .memDir entries =>
      match childLookup entries oldName with
      | none => .error .NotFound
      | some node =>
          if (childLookup entries newName).isSome then .error .AlreadyExists
          else .ok (.memDir (childInsert (childErase entries oldName) newName node))
  | .kernDir _ => .error .NotImplemented
  | _ => .error .NotADirectory

/-- `MemVNode::move_node` (`fs/memfs.rs` lines 91-140): cross-directory move
between two concrete `MemVNode` directories.  Returns the updated
(source, target) pair. -/
def memMoveNode (sourceParent targetParent : VN) (oldName newName : String) :
    Except VfsError (VN × VN) :=
  match sourceParent with
  | .memDir sourceEntries =>
      match targetParent with
      | .memDir targetEntries =>
          match childLookup sourceEntries oldName with
          | none => .error .NotFound
          | some nodeToMove =>
              if (childLookup targetEntries newName).isSome then
                .error .AlreadyExists
              else
                .ok (.memDir (childErase sourceEntries oldName),
                     .memDir (childInsert targetEntries newName nodeToMove))
      | _ => .error .NotADirectory
  | _ => .error .NotADirectory

/-! ## Device manager collaborator and open handles -/

instance {ε α : Type} [DecidableEq ε] [DecidableEq α] :
    DecidableEq (Except ε α) := fun x y =>
  match x, y with
  | .ok a, .ok b =>
      if h : a = b then .isTrue (by rw [h])
      else .isFalse (fun hc => h (Except.ok.inj hc))
  | .error a, .error b =>
      if h : a = b then .isTrue (by rw [h])
      else .isFalse (fun hc => h (Except.error.inj hc))
  | .ok _, .error _ => .isFalse (fun hc => Except.noConfusion hc)
  | .error _, .ok _ => .isFalse (fun hc => Except.noConfusion hc)

/-- The external Device Manager's view of one device, as the VFS consumes it
(`drivers/device.rs`): its type, whether `Device::open()` succeeds (the
open-refcount bookkeeping itself is the manager's business), and the result
its char-device `read` produces for the read in question. -/
structure DeviceModel where
  dtype : DeviceType
  openErr : Option DeviceError
  readRes : Except DeviceError Nat
  deriving DecidableEq, Repr

/-- The Device Manager's registration table, keyed by (major, minor). -/
abbrev DeviceManager := List ((Nat × Nat) × DeviceModel)

/-- `DeviceManager::get_device_by_major_minor`. -/
def dmLookup (dm : DeviceManager) (major minor : Nat) : Option DeviceModel :=
  match dm with
  | [] => none
  | (k, v) :: rest =>
      if k = (major, minor) then some v else dmLookup rest major minor

/-- An open file handle (`Box<dyn File>`): either a `MemFile`
(`fs/memfs.rs` lines 370-399: cursor-plus-metadata handle and the shared
buffer) or a `MemDeviceFile` (lines 474-482: just the `Device` resolved at
open time — no cursor). -/
inductive FileHandleModel where
  | mem (h : MemFileHandle) (data : List Nat)
  | dev (d : DeviceModel)
  deriving DecidableEq, Repr

/-- `MemVNode::open` (`fs/memfs.rs` lines 157-185).  `File`: a `MemFile`
with cursor 0 and a clone of the stored metadata.  `Device`: re-resolve by
(major, minor) in the Device Manager (`DeviceNotFound` if absent), check the
stored expected type against the live device's type (`InvalidArgument` on
mismatch), call `device.open()` (propagating its error as `DeviceError`),
and wrap the resolved device.  Everything else: `NotAFile`. -/
def vnOpen (dm : DeviceManager) (n : VN) : Except VfsError FileHandleModel :=
  match n with
  | .memFile data meta => .ok (.mem { cursor := 0, hmeta := meta } data)
  | .memDevice major minor devType =>
      match dmLookup dm major minor with
      | none => .error .DeviceNotFound
      | some d =>
          if d.dtype ≠ devType then .error .InvalidArgument
          else
            match d.openErr with
            | some e => .error (.DeviceError e)
            | none => .ok (.dev d)
  | _ => .error .NotAFile

/-- `MemDeviceFile::read` (`fs/memfs.rs` lines 485-490): forward to the
char-device read of the device captured at open time — the Device Manager is
not consulted again.  Block devices have no char interface, so
`as_char_device()` is `None` and the read fails `NotImplemented`. -/
def memDeviceFileRead (d : DeviceModel) : Except VfsError Nat :=
  match d.dtype with
  | .Char =>
      match d.readRes with
      | .ok n => .ok n
      | .error e => .error (.DeviceError e)
  | .Block => .error .NotImplemented

/-- Modelled from the spec (§4.6): "Every `read_at`/`write_at`/`open` on
such an inode: looks up the device by (major, minor) in the Device Manager
(fails if absent), checks the stored expected type against the live device's
type (fails InvalidArgument on mismatch), and forwards to the live device's
read" — i.e. a read that *re-resolves* through the manager. -/
def specDeviceRead (dm : DeviceManager) (major minor : Nat)
    (devType : DeviceType) : Except VfsError Nat :=
  match dmLookup dm major minor with
  | none => .error .DeviceNotFound
  | some d =>
      if d.dtype ≠ devType then .error .InvalidArgument
      else
        match d.readRes with
        | .ok n => .ok n
        | .error e => .error (.DeviceError e)

/-! ## Mount table and path resolution (`fs/vfs.rs` lines 203-509) -/

/-- `fs/vfs.rs` lines 203-207, `MountPoint`: normalized prefix (stored with
no leading/trailing slash, line 288), its cached length, and the mounted
subtree's root. -/
structure MountPoint where
  path : String
  mountPointLen : Nat
  root : VN

/-- `fs/vfs.rs` lines 210-217: the Vfs state the resolution engine reads —
the global root and the mount list.  (The fs-driver registry feeds only
`Vfs::mount`, which is not needed by the claims below.) -/
structure Vfs where
  root : VN
  mounts : List MountPoint

/-- `MemFs::mount` (`fs/memfs.rs` lines 519-533): a fresh empty directory. -/
def memfsMount : VN := .memDir []

/-- `Vfs::new` (`fs/vfs.rs` lines 222-234): global root = a MemFs mount,
empty mount table. -/
def vfsNew : Vfs := { root := memfsMount, mounts := [] }

/-- One step of Rust's `Iterator::max_by_key`: keep the running maximum by
`mount_point_len`, replacing it on ties so that the *last* maximal element
wins, as `max_by_key` specifies. -/
def maxStep (best : Option MountPoint) (m : MountPoint) : Option MountPoint :=
  match best with
  | none => some m
  | some b => if b.mountPointLen ≤ m.mountPointLen then some m else some b

/-- Rust's `Iterator::max_by_key` over `mount_point_len`. -/
def maxByLenLast (mounts : List MountPoint) : Option MountPoint :=
  mounts.foldl maxStep none

/-- `fs/vfs.rs` lines 461-464: filter the mounts whose stored path is a
string prefix of the (trimmed, normalized) path, then take the longest. -/
def selectMount (mounts : List MountPoint) (p : List Char) :
    Option MountPoint :=
  maxByLenLast (mounts.filter (fun m => m.path.data.isPrefixOf p))

/-- `Vfs::resolve_symlink_if_needed` (`fs/vfs.rs` lines 497-509) with the
recursive `path_to_vnode(target, depth + 1)` call abstracted as `recurse`:
a symlink's target string is read and re-resolved; anything else passes
through. -/
def resolveStep (recurse : String → Except VfsError VN) (n : VN) :
    Except VfsError VN :=
  if vnNodeType n = .SymLink then
    match vnReadSymlink n with
    | .ok target => recurse target
    | .error e => .error e
  else .ok n

/-- The component walk of `Vfs::path_to_vnode` (`fs/vfs.rs` lines 473-481
and 485-492): skip empty and `"."` components, `lookup` each remaining one
on the current node, and resolve symlinks after every successful lookup. -/
def walkComps (recurse : String → Except VfsError VN) (cur : VN) :
    List (List Char) → Except VfsError VN
  | [] => .ok cur
  | c :: rest =>
    if c = [] ∨ c = ['.'] then walkComps recurse cur rest
    else
      match vnLookup cur (String.mk c) with
      | .error e => .error e
      | .ok n =>
          match resolveStep recurse n with
          | .error e => .error e
          | .ok n2 => walkComps recurse n2 rest

/-- `Vfs::MAX_SYMLINK_DEPTH` (`fs/vfs.rs` line 443). -/
def maxSymlinkDepth : Nat := 8

/-- `Vfs::path_to_vnode` (`fs/vfs.rs` lines 445-494), with the depth
counter re-expressed as remaining gas: a call at recursion depth `d`
corresponds to `gas = MAX_SYMLINK_DEPTH + 1 - d`, so the source's entry
guard `depth > MAX_SYMLINK_DEPTH → MaxSymlinkDepth` is the `gas = 0` case,
and each symlink recursion (`depth + 1`) spends one unit of gas.  The body
is otherwise line-for-line: normalize and trim the path; empty ⇒ the global
root, unchecked; else try the longest matching mount prefix, resolving the
mount root itself when nothing of the path remains, and walk the remaining
components from the mount root or, with no matching mount, from the global
root. -/
def pathToVnodeG : Nat → Vfs → String → Except VfsError VN
  | 0, _, _ => .error .MaxSymlinkDepth
  | gas + 1, v, path =>
    let p := trimSlashes (vfsNormalizePath path).data
    if p = [] then .ok v.root
    else
      match selectMount v.mounts p with
      | some m =>
          let subpath := trimSlashes (p.drop m.mountPointLen)
          if subpath = [] then resolveStep (pathToVnodeG gas v) m.root
          else walkComps (pathToVnodeG gas v) m.root (splitOnChar '/' subpath)
      | none => walkComps (pathToVnodeG gas v) v.root (splitOnChar '/' p)

/-- `Vfs::path_to_vnode` at an explicit recursion depth. -/
def vfsPathToVnode (v : Vfs) (path : String) (depth : Nat) :
    Except VfsError VN :=
  pathToVnodeG (maxSymlinkDepth + 1 - depth) v path

/-- `Vfs::lookup` (`fs/vfs.rs` lines 304-306): resolution from depth 0. -/
def vfsLookup (v : Vfs) (path : String) : Except VfsError VN :=
  vfsPathToVnode v path 0

/-- `Vfs::open` (`fs/vfs.rs` lines 309-315): look the path up, insist the
node's type is `File`, and open it. -/
def vfsOpen (dm : DeviceManager) (v : Vfs) (path : String) :
    Except VfsError FileHandleModel :=
  match vfsLookup v path with
  | .error e => .error e
  | .ok vnode =>
      if vnNodeType vnode ≠ .File then .error .NotAFile
      else vnOpen dm vnode

/-- The effect of a successful `Vfs::rename_move`: the in-place mutation of
one parent (same-directory rename) or of both parents (cross-directory
move), expressed as the updated node values. -/
inductive RenameOutcome where
  | renamed (parent : VN)
  | moved (source target : VN)

/-- `Vfs::rename_move` (`fs/vfs.rs` lines 397-440): split both paths,
resolve both parents, require the source entry to exist (else `NotFound`)
and the target name to be free (else `AlreadyExists`); same parent *path
string* ⇒ `rename` on that parent, different ⇒ `MemVNode::move_node` when
both parents downcast to `MemVNode`, `NotImplemented` otherwise. -/
def vfsRenameMove (v : Vfs) (oldPath newPath : String) :
    Except VfsError RenameOutcome :=
  match splitPath oldPath with
  | .error e => .error e
  | .ok (oldParentPath, oldName) =>
    match vfsLookup v oldParentPath with
    | .error e => .error e
    | .ok oldParent =>
      match splitPath newPath with
      | .error e => .error e
      | .ok (newParentPath, newName) =>
        match vfsLookup v newParentPath with
        | .error e => .error e
        | .ok newParent =>
          if (vnLookup oldParent oldName).isOk = false then .error .NotFound
          else if (vnLookup newParent newName).isOk then .error .AlreadyExists
          else if oldParentPath = newParentPath then
            match vnRename oldParent oldName newName with
            | .error e => .error e
            | .ok parent => .ok (.renamed parent)
          else if isMemVNode oldParent ∧ isMemVNode newParent then
            match memMoveNode oldParent newParent oldName newName with
            | .error e => .error e
            | .ok (s, t) => .ok (.moved s t)
          else .error .NotImplemented

/-! ## Concrete fixtures used by witnesses and counterexamples -/

/-- Name of the `i`-th link in the symlink-chain family. -/
def lname (i : Nat) : String := "l" ++ toString i

/-- The regular file terminating a symlink chain. -/
def chainFile : VN := .memFile [] (createMetadata .File 0)

/-- A directory with a chain of `n` symlinks `l0 → /l1 → … → /l(n-1) → /ln`
ending at the file `ln`: resolving `/l0` takes exactly `n` recursive symlink
resolutions. -/
def chainEntries (n : Nat) : List (String × VN) :=
  ((List.range n).map (fun i => (lname i, VN.memSymlink ("/" ++ lname (i + 1))))) ++
    [(lname n, chainFile)]

/-- A Vfs whose root directory carries the length-`n` symlink chain. -/
def chainVfs (n : Nat) : Vfs :=
  { root := .memDir (chainEntries n), mounts := [] }

/-- Mount registered at `/mnt` (stored trimmed, with its cached length). -/
def mountMnt : MountPoint :=
  { path := "mnt"
    mountPointLen := 3
    root := .memDir [("data", .memDir [("foo", .memFile [2] (createMetadata .File 1))])] }

/-- Mount registered at `/mnt/data`, shadowing `mountMnt` for paths below
`/mnt/data`. -/
def mountMntData : MountPoint :=
  { path := "mnt/data"
    mountPointLen := 8
    root := .memDir [("foo", .memFile [3] (createMetadata .File 1))] }

/-- The mount table holding both mounts, shorter prefix first. -/
def shadowMounts : List MountPoint := [mountMnt, mountMntData]

/-- A Vfs whose *global* tree also carries `/mnt/data/foo` (content `[1]`),
while the `/mnt` mount sees `foo` as `[2]` and the `/mnt/data` mount sees it
as `[3]` — lookup must pick `[3]`. -/
def shadowVfs : Vfs :=
  { root := .memDir
      [("mnt", .memDir [("data", .memDir [("foo", .memFile [1] (createMetadata .File 1))])])]
    mounts := shadowMounts }

/-- A registered char device for the device-bridge scenarios. -/
def devC : DeviceModel := { dtype := .Char, openErr := none, readRes := .ok 5 }

/-- A Device Manager with `devC` registered under (major, minor) = (1, 2). -/
def dmWith : DeviceManager := [((1, 2), devC)]

/-- A Device Manager with nothing registered. -/
def dmEmpty : DeviceManager := []

/-- A Vfs holding a device node `/dev0` that stores (1, 2, Char). -/
def devVfs : Vfs :=
  { root := .memDir [("dev0", .memDevice 1 2 .Char)], mounts := [] }

/-- A directory holding a non-empty subdirectory `d` and a file `e`. -/
def removeParentEntries : List (String × VN) :=
  [("d", .memDir [("x", chainFile)]), ("e", chainFile)]

/-- A Vfs for the rename/move scenarios: two MemVNode directories `a` (with
an entry `x`) and `b` (empty), and one non-MemVNode directory `k`. -/
def moveVfs : Vfs :=
  { root := .memDir
      [("a", .memDir [("x", chainFile)]), ("b", .memDir []), ("k", .kernDir [])]
    mounts := [] }

/-- A Vfs whose root holds a symlink `a → /b` next to the file `b`. -/
def symVfs : Vfs :=
  { root := .memDir [("a", .memSymlink "/b"), ("b", chainFile)], mounts := [] }

/-! ## Helper lemmas -/

/-- Elements of the filtered split are never the empty segment. -/
lemma mem_filter_segs_ne_nil {path : List Char} {x : List Char}
    (hx : x ∈ (splitOnChar '/' path).filter (fun s => ¬(s = [] ∨ s = ['.']))) :
    x ≠ [] := by
  have := List.of_mem_filter hx
  simp only [decide_eq_true_eq] at this
  exact fun h => this (Or.inl h)

/-- The guarded pop of `normalize_path` agrees with the spec's unconditional
clamped pop as long as no retained segment is empty (which the filter
guarantees). -/
lemma foldl_normStep_eq_specNormStep :
    ∀ (parts acc : List (List Char)),
      (∀ x ∈ acc, x ≠ []) → (∀ x ∈ parts, x ≠ []) →
      parts.foldl normStep acc = parts.foldl specNormStep acc := by
  intro parts
  induction parts with
  | nil => intro acc _ _; rfl
  | cons p ps ih =>
    intro acc hacc hparts
    have hp : p ≠ [] := hparts p (List.mem_cons_self ..)
    have hps : ∀ x ∈ ps, x ≠ [] := fun x hx => hparts x (List.mem_cons_of_mem _ hx)
    have hstep : normStep acc p = specNormStep acc p := by
      unfold normStep specNormStep
      by_cases hdd : p = ['.', '.']
      · simp only [hdd, if_pos rfl]
        match hacc2 : acc.getLast? with
        | none =>
            have : acc = [] := by
              cases acc with
              | nil => rfl
              | cons a as => simp [List.getLast?_concat] at hacc2
            simp [this]
        | some last =>
            have hlast : last ∈ acc := by
              rcases List.mem_getLast?_eq_getLast (l := acc) (x := last)
                  (by rw [hacc2]; rfl) with ⟨hne', heq⟩
              rw [heq]; exact List.getLast_mem hne'
            have : last ≠ [] := hacc last hlast
            simp [this]
      · simp [hdd]
    rw [List.foldl_cons, List.foldl_cons, hstep]
    apply ih
    · intro x hx
      unfold specNormStep at hx
      by_cases hdd : p = ['.', '.']
      · simp only [hdd, if_pos rfl] at hx
        exact hacc x (List.dropLast_subset _ hx)
      · simp only [if_neg hdd, List.mem_append, List.mem_singleton] at hx
        rcases hx with hx | hx
        · exact hacc x hx
        · rw [hx]; exact hp
    · exact hps

/-- A key found in the front list is found in the appended list. -/
lemma childLookup_append_some {xs ys : List (String × VN)} {k : String} {v : VN}
    (h : childLookup xs k = some v) : childLookup (xs ++ ys) k = some v := by
  induction xs with
  | nil => simp [childLookup] at h
  | cons a rest ih =>
    obtain ⟨ka, va⟩ := a
    by_cases hk : ka = k
    · simp [childLookup, hk] at h ⊢; exact h
    · simp [childLookup, hk] at h ⊢; exact ih h

/-- Splitting a long chain's entries into its first nine links and a tail. -/
lemma chainEntries_split (m : Nat) :
    chainEntries (9 + m) =
      ((List.range 9).map (fun i => (lname i, VN.memSymlink ("/" ++ lname (i + 1))))) ++
      (((List.range m).map (9 + ·)).map
          (fun i => (lname i, VN.memSymlink ("/" ++ lname (i + 1)))) ++
        [(lname (9 + m), chainFile)]) := by
  unfold chainEntries
  rw [List.range_add, List.map_append, List.append_assoc]

/-- In a chain of length at least nine, each of the first nine links looks
up to the symlink pointing at the next link. -/
lemma chainLookup (m i : Nat) (hi : i ≤ 8) :
    childLookup (chainEntries (9 + m)) (lname i) =
      some (.memSymlink ("/" ++ lname (i + 1))) := by
  rw [chainEntries_split]
  apply childLookup_append_some
  interval_cases i <;> rfl

/-- The trailing error/ok re-match in the walk is the identity. -/
lemma exceptMatchId (x : Except VfsError VN) :
    (match x with
     | .error e => (.error e : Except VfsError VN)
     | .ok v => .ok v) = x := by
  cases x <;> rfl

/-- Walking a single component that names a symlink reduces to re-resolving
the symlink's target. -/
lemma walk_single_symlink (R : String → Except VfsError VN)
    (es : List (String × VN)) (nm : List Char) (t : String)
    (h1 : ¬(nm = [] ∨ nm = ['.']))
    (hl : childLookup es (String.mk nm) = some (.memSymlink t)) :
    walkComps R (.memDir es) [nm] = R t := by
  simp only [walkComps, if_neg h1, vnLookup, hl, resolveStep, vnNodeType,
    vnReadSymlink, if_pos rfl]
  exact exceptMatchId _

/-- With an empty mount table and a path that does not normalize to the
root, resolution is the component walk from the global root. -/
lemma pathToVnodeG_no_mounts (g : Nat) (root : VN) (path : String)
    (hp : trimSlashes (vfsNormalizePath path).data ≠ []) :
    pathToVnodeG (g + 1) { root := root, mounts := [] } path =
      walkComps (pathToVnodeG g { root := root, mounts := [] }) root
        (splitOnChar '/' (trimSlashes (vfsNormalizePath path).data)) := by
  simp only [pathToVnodeG, if_neg hp, selectMount, List.filter_nil,
    maxByLenLast, List.foldl_nil]

/-- In a chain of length `9 + m`, resolving link `i ≤ 8` spends one unit of
gas and moves to link `i + 1`. -/
lemma chain_step (m i : Nat) (hi : i ≤ 8) :
    pathToVnodeG (9 - i) (chainVfs (9 + m)) ("/" ++ lname i) =
    pathToVnodeG (8 - i) (chainVfs (9 + m)) ("/" ++ lname (i + 1)) := by
  have h9 : (9 : Nat) - i = (8 - i) + 1 := by omega
  rw [h9]
  rw [show chainVfs (9 + m) =
    { root := VN.memDir (chainEntries (9 + m)), mounts := [] } from rfl]
  interval_cases i
  · rw [pathToVnodeG_no_mounts _ _ _ (by decide)]
    exact walk_single_symlink _ (chainEntries (9 + m)) _ _ (by decide)
      (chainLookup m 0 (by norm_num))
  · rw [pathToVnodeG_no_mounts _ _ _ (by decide)]
    exact walk_single_symlink _ (chainEntries (9 + m)) _ _ (by decide)
      (chainLookup m 1 (by norm_num))
  · rw [pathToVnodeG_no_mounts _ _ _ (by decide)]
    exact walk_single_symlink _ (chainEntries (9 + m)) _ _ (by decide)
      (chainLookup m 2 (by norm_num))
  · rw [pathToVnodeG_no_mounts _ _ _ (by decide)]
    exact walk_single_symlink _ (chainEntries (9 + m)) _ _ (by decide)
      (chainLookup m 3 (by norm_num))
  · rw [pathToVnodeG_no_mounts _ _ _ (by decide)]
    exact walk_single_symlink _ (chainEntries (9 + m)) _ _ (by decide)
      (chainLookup m 4 (by norm_num))
  · rw [pathToVnodeG_no_mounts _ _ _ (by decide)]
    exact walk_single_symlink _ (chainEntries (9 + m)) _ _ (by decide)
      (chainLookup m 5 (by norm_num))
  · rw [pathToVnodeG_no_mounts _ _ _ (by decide)]
    exact walk_single_symlink _ (chainEntries (9 + m)) _ _ (by decide)
      (chainLookup m 6 (by norm_num))
  · rw [pathToVnodeG_no_mounts _ _ _ (by decide)]
    exact walk_single_symlink _ (chainEntries (9 + m)) _ _ (by decide)
      (chainLookup m 7 (by norm_num))
  · rw [pathToVnodeG_no_mounts _ _ _ (by decide)]
    exact walk_single_symlink _ (chainEntries (9 + m)) _ _ (by decide)
      (chainLookup m 8 (by norm_num))

/-- A chain of more than eight symlinks exhausts the depth budget. -/
lemma chainVfs_long_fails (m : Nat) :
    vfsLookup (chainVfs (9 + m)) "/l0" = .error .MaxSymlinkDepth := by
  have c0 := chain_step m 0 (by norm_num)
  have c1 := chain_step m 1 (by norm_num)
  have c2 := chain_step m 2 (by norm_num)
  have c3 := chain_step m 3 (by norm_num)
  have c4 := chain_step m 4 (by norm_num)
  have c5 := chain_step m 5 (by norm_num)
  have c6 := chain_step m 6 (by norm_num)
  have c7 := chain_step m 7 (by norm_num)
  have c8 := chain_step m 8 (by norm_num)
  show pathToVnodeG 9 (chainVfs (9 + m)) "/l0" = .error .MaxSymlinkDepth
  norm_num at c0 c1 c2 c3 c4 c5 c6 c7 c8
  rw [show ("/l0" : String) = "/" ++ lname 0 from rfl]
  rw [c0, c1, c2, c3, c4, c5, c6, c7, c8]
  rfl

/-- `foldl maxStep` from a seed yields an element of the seed-or-list that
dominates both the seed and every list element by `mountPointLen`. -/
lemma maxStep_foldl_spec :
    ∀ (l : List MountPoint) (b : MountPoint),
      ∃ m, l.foldl maxStep (some b) = some m ∧ (m = b ∨ m ∈ l) ∧
        b.mountPointLen ≤ m.mountPointLen ∧
        ∀ x ∈ l, x.mountPointLen ≤ m.mountPointLen := by
  intro l
  induction l with
  | nil =>
    intro b
    exact ⟨b, rfl, Or.inl rfl, le_refl _, by simp⟩
  | cons a as ih =>
    intro b
    by_cases h : b.mountPointLen ≤ a.mountPointLen
    · obtain ⟨m, hm, hmem, hle, hall⟩ := ih a
      refine ⟨m, ?_, ?_, le_trans h hle, ?_⟩
      · rw [List.foldl_cons, show maxStep (some b) a = some a by simp [maxStep, h]]
        exact hm
      · rcases hmem with hmem | hmem
        · exact Or.inr (hmem ▸ List.mem_cons_self ..)
        · exact Or.inr (List.mem_cons_of_mem _ hmem)
      · intro x hx
        rcases List.mem_cons.mp hx with hx | hx
        · exact hx ▸ hle
        · exact hall x hx
    · obtain ⟨m, hm, hmem, hle, hall⟩ := ih b
      refine ⟨m, ?_, ?_, hle, ?_⟩
      · rw [List.foldl_cons, show maxStep (some b) a = some b by simp [maxStep, h]]
        exact hm
      · rcases hmem with hmem | hmem
        · exact Or.inl hmem
        · exact Or.inr (List.mem_cons_of_mem _ hmem)
      · intro x hx
        rcases List.mem_cons.mp hx with hx | hx
        · exact hx ▸ le_trans (le_of_not_le h) hle
        · exact hall x hx

/-- Whenever some registered mount prefixes the path, `selectMount` returns
a registered mount that prefixes the path and whose cached length dominates
every other matching mount's. -/
lemma selectMount_longest_spec (mounts : List MountPoint) (p : List Char)
    (m' : MountPoint) (hmem : m' ∈ mounts)
    (hpre : m'.path.data.isPrefixOf p) :
    ∃ m, selectMount mounts p = some m ∧ m ∈ mounts ∧
      m.path.data.isPrefixOf p ∧
      ∀ m2 ∈ mounts, m2.path.data.isPrefixOf p →
        m2.mountPointLen ≤ m.mountPointLen := by
  have hmf : m' ∈ mounts.filter (fun m => m.path.data.isPrefixOf p) :=
    List.mem_filter.mpr ⟨hmem, hpre⟩
  unfold selectMount maxByLenLast
  match hf : mounts.filter (fun m => m.path.data.isPrefixOf p) with
  | [] => rw [hf] at hmf; cases hmf
  | a :: as =>
    rw [hf]
    obtain ⟨m, hm, hmemm, hlea, hall⟩ := maxStep_foldl_spec as a
    have hfold : (a :: as).foldl maxStep none = some m := by
      rw [List.foldl_cons]; exact hm
    have hmas : m ∈ a :: as := by
      rcases hmemm with hmemm | hmemm
      · exact hmemm ▸ List.mem_cons_self ..
      · exact List.mem_cons_of_mem _ hmemm
    refine ⟨m, hfold, ?_, ?_, ?_⟩
    · rw [← hf] at hmas
      exact (List.mem_filter.mp hmas).1
    · rw [← hf] at hmas
      have := (List.mem_filter.mp hmas).2
      simpa using this
    · intro m2 hm2 hp2
      have hin : m2 ∈ a :: as := by
        rw [← hf]; exact List.mem_filter.mpr ⟨hm2, hp2⟩
      rcases List.mem_cons.mp hin with h2 | h2
      · exact h2 ▸ hlea
      · exact hall m2 h2

/-- `max_by_key` over a mount list yields an element of the list. -/
lemma maxByLenLast_mem {l : List MountPoint} {m : MountPoint}
    (h : maxByLenLast l = some m) : m ∈ l := by
  cases l with
  | nil => cases h
  | cons a as =>
    obtain ⟨m2, hm2, hmem, _, _⟩ := maxStep_foldl_spec as a
    unfold maxByLenLast at h
    rw [List.foldl_cons, show maxStep none a = some a from rfl, hm2] at h
    have hm : m = m2 := by
      injection h with h
      exact h.symm
    subst hm
    rcases hmem with hmem | hmem
    · exact hmem ▸ List.mem_cons_self ..
    · exact List.mem_cons_of_mem _ hmem

/-- A successful `resolve_symlink_if_needed` never produces a symlink,
provided the recursive resolver never does: the non-symlink branch returns
the checked node, the symlink branch defers to the resolver. -/
lemma resolveStep_no_symlink (R : String → Except VfsError VN)
    (hR : ∀ t u, R t = .ok u → vnNodeType u ≠ .SymLink)
    (node n2 : VN) (h : resolveStep R node = .ok n2) :
    vnNodeType n2 ≠ .SymLink := by
  unfold resolveStep at h
  by_cases hs : vnNodeType node = .SymLink
  · rw [if_pos hs] at h
    match hr : vnReadSymlink node with
    | .ok t => rw [hr] at h; exact hR t n2 h
    | .error e => rw [hr] at h; cases h
  · rw [if_neg hs] at h
    injection h with h
    exact h ▸ hs

/-- A successful component walk starting from a non-symlink node never
produces a symlink, provided the recursive resolver never does. -/
lemma walkComps_no_symlink (R : String → Except VfsError VN)
    (hR : ∀ t u, R t = .ok u → vnNodeType u ≠ .SymLink) :
    ∀ (comps : List (List Char)) (cur n : VN),
      vnNodeType cur ≠ .SymLink → walkComps R cur comps = .ok n →
      vnNodeType n ≠ .SymLink := by
  intro comps
  induction comps with
  | nil =>
    intro cur n hcur h
    unfold walkComps at h
    injection h with h
    exact h ▸ hcur
  | cons c rest ih =>
    intro cur n hcur h
    unfold walkComps at h
    by_cases hc : c = [] ∨ c = ['.']
    · rw [if_pos hc] at h
      exact ih cur n hcur h
    · rw [if_neg hc] at h
      split at h
      · exact Except.noConfusion h
      · rename_i n1 _
        split at h
        · exact Except.noConfusion h
        · rename_i n2 hrs
          exact ih n2 n (resolveStep_no_symlink R hR n1 n2 hrs) h

/-- Path resolution never hands back a symlink as long as the global root
and every mount root are not symlink nodes. -/
lemma pathToVnodeG_no_symlink :
    ∀ (gas : Nat) (v : Vfs),
      vnNodeType v.root ≠ .SymLink →
      (∀ mp ∈ v.mounts, vnNodeType mp.root ≠ .SymLink) →
      ∀ (p : String) (n : VN), pathToVnodeG gas v p = .ok n →
        vnNodeType n ≠ .SymLink := by
  intro gas
  induction gas with
  | zero => intro v _ _ p n h; cases h
  | succ g ih =>
    intro v hroot hmounts p n h
    have hR : ∀ t u, pathToVnodeG g v t = .ok u → vnNodeType u ≠ .SymLink :=
      fun t u hu => ih v hroot hmounts t u hu
    simp only [pathToVnodeG] at h
    split at h
    · injection h with h
      exact h ▸ hroot
    · split at h
      · rename_i m hsel
        have hmmem : m ∈ v.mounts :=
          List.mem_of_mem_filter (maxByLenLast_mem hsel)
        split at h
        · exact resolveStep_no_symlink _ hR m.root n h
        · exact walkComps_no_symlink _ hR _ m.root n (hmounts m hmmem) h
      · exact walkComps_no_symlink _ hR _ v.root n hroot h

/-! ## Claim theorems -/

/-- C1: on a file handle freshly opened on a zero-length MemFs file, for any
non-empty byte sequence `buf`, `write(buf)` then `seek(0)` then a `read`
into a buffer of length `buf.len()` returns exactly `buf`: the count equals
`buf.len()` and the bytes read equal `buf`. -/
theorem write_seek_read_roundtrip (buf : List Nat) (hne : buf ≠ []) :
    (memFileRead
        (memFileWrite freshFileInode.data (memVNodeOpenFile freshFileInode) buf).1
        ((memFileSeek
            (memFileWrite freshFileInode.data (memVNodeOpenFile freshFileInode) buf).2.1
            0).1)
        buf.length).2.1 = buf.length ∧
    (memFileRead
        (memFileWrite freshFileInode.data (memVNodeOpenFile freshFileInode) buf).1
        ((memFileSeek
            (memFileWrite freshFileInode.data (memVNodeOpenFile freshFileInode) buf).2.1
            0).1)
        buf.length).2.2 = buf := by
  have hlen : 0 < buf.length := List.length_pos.mpr hne
  simp [freshFileInode, memVNodeOpenFile, memFileWrite, memFileSeek,
    memFileRead, Nat.not_le.mpr hlen, createMetadata, hne]

/-- C1 witness. -/
theorem write_seek_read_roundtrip_witness :
    ([7, 42] : List Nat) ≠ [] ∧
    ((memFileRead
        (memFileWrite freshFileInode.data (memVNodeOpenFile freshFileInode) [7, 42]).1
        ((memFileSeek
            (memFileWrite freshFileInode.data (memVNodeOpenFile freshFileInode) [7, 42]).2.1
            0).1)
        ([7, 42] : List Nat).length).2.1 = ([7, 42] : List Nat).length ∧
     (memFileRead
        (memFileWrite freshFileInode.data (memVNodeOpenFile freshFileInode) [7, 42]).1
        ((memFileSeek
            (memFileWrite freshFileInode.data (memVNodeOpenFile freshFileInode) [7, 42]).2.1
            0).1)
        ([7, 42] : List Nat).length).2.2 = [7, 42]) :=
  ⟨by decide, write_seek_read_roundtrip [7, 42] (by decide)⟩

/-- C4 counterexample: write one byte through a handle freshly opened on a
zero-length file.  The shared buffer now has length 1, but the inode's
`metadata()` still reports size 0 — `MemVNode::metadata` returns the stored
metadata without recomputation, and `MemFile::write` updates only the
handle's own metadata clone. -/
theorem inode_metadata_stale_after_write :
    (memFileWrite freshFileInode.data (memVNodeOpenFile freshFileInode) [7]).1.length = 1 ∧
    (memVNodeMetadata freshFileInode).size = 0 ∧
    (memVNodeMetadata freshFileInode).size ≠
      (memFileWrite freshFileInode.data (memVNodeOpenFile freshFileInode) [7]).1.length := by
  refine ⟨rfl, rfl, ?_⟩
  decide

/-- C4 (amended): only the open handle's `stat()` resynchronises the
reported size with the shared buffer's actual length; whatever the handle's
metadata clone said before, `stat()` reports exactly the buffer length. -/
theorem memFileStat_reports_buffer_length (data : List Nat) (h : MemFileHandle) :
    ((memFileStat data h).2).size = data.length := by
  unfold memFileStat metaWithSize
  by_cases hsz : h.hmeta.size = data.length <;> simp [hsz]

/-- C5: `normalize_path` splits on `/`, drops empty segments and `"."`, pops
the last retained segment for each `".."` without ever popping past the
root, and renders a canonical absolute path with no trailing slash except
for the literal root `"/"` — it coincides with the function modelled from
the spec's wording, and any run of `".."` segments starting from the root
leaves the segment stack at the root. -/
theorem normalize_path_correct :
    (∀ path : String, vfsNormalizePath path = specNormalizePath path) ∧
    (∀ n : Nat, (List.replicate n ['.', '.']).foldl normStep [] = []) := by
  constructor
  · intro path
    unfold vfsNormalizePath specNormalizePath vfsNormSegs
    congr 2
    exact foldl_normStep_eq_specNormStep _ [] (by intro x hx; cases hx)
      (fun x hx => mem_filter_segs_ne_nil hx)
  · intro n
    induction n with
    | zero => rfl
    | succ m ih => simpa [List.replicate_succ, normStep] using ih

/-- C2: whenever registered mount prefixes string-prefix a normalized path,
lookup selects the mount with the longest prefix; concretely, with mounts
registered at `mnt` and `mnt/data` and a `/mnt/data/foo` also present in the
global tree, `lookup("/mnt/data/foo")` resolves under the `/mnt/data`
mount's root (content `[3]`) rather than under the shorter mount or by
walking from the global root. -/
theorem longest_prefix_mount :
    (∀ (mounts : List MountPoint) (p : List Char) (mSome : MountPoint),
        mSome ∈ mounts → mSome.path.data.isPrefixOf p →
        ∃ m, selectMount mounts p = some m ∧ m ∈ mounts ∧
          m.path.data.isPrefixOf p ∧
          ∀ m2 ∈ mounts, m2.path.data.isPrefixOf p →
            m2.mountPointLen ≤ m.mountPointLen) ∧
    vfsLookup shadowVfs "/mnt/data/foo" =
      .ok (.memFile [3] (createMetadata .File 1)) := by
  exact ⟨selectMount_longest_spec, rfl⟩

/-- C2 witness: the selection property applied to the concrete two-mount
table at the path `mnt/data/foo`. -/
theorem longest_prefix_mount_witness :
    mountMnt ∈ shadowMounts ∧
    (mountMnt.path.data.isPrefixOf "mnt/data/foo".data) = true ∧
    (∃ m, selectMount shadowMounts "mnt/data/foo".data = some m ∧
      m ∈ shadowMounts ∧ m.path.data.isPrefixOf "mnt/data/foo".data ∧
      ∀ m2 ∈ shadowMounts, m2.path.data.isPrefixOf "mnt/data/foo".data →
        m2.mountPointLen ≤ m.mountPointLen) :=
  ⟨List.mem_cons_self .., rfl,
    longest_prefix_mount.1 shadowMounts "mnt/data/foo".data mountMnt
      (List.mem_cons_self ..) rfl⟩

/-- C3: in the family of symlink chains `l0 → /l1 → … → /ln (file)`, a chain
requiring at most 8 recursive symlink resolutions resolves successfully to
the final file, and a chain requiring more than 8 (length `9 + m`) fails
with `MaxSymlinkDepth`. -/
theorem symlink_chain_depth :
    (∀ n, n ≤ 8 → vfsLookup (chainVfs n) "/l0" = .ok chainFile) ∧
    (∀ m, vfsLookup (chainVfs (9 + m)) "/l0" = .error .MaxSymlinkDepth) := by
  constructor
  · intro n hn
    interval_cases n <;> rfl
  · exact chainVfs_long_fails

/-- C3 witness: the boundary cases, a chain of exactly 8 and of exactly 9. -/
theorem symlink_chain_depth_witness :
    (8 ≤ 8 ∧ vfsLookup (chainVfs 8) "/l0" = .ok chainFile) ∧
    vfsLookup (chainVfs (9 + 0)) "/l0" = .error .MaxSymlinkDepth :=
  ⟨⟨by decide, symlink_chain_depth.1 8 (by decide)⟩, symlink_chain_depth.2 0⟩

/-- C6: `remove(name)` on a directory fails with `DirectoryNotEmpty` when
the named entry is a directory with a non-empty entry map, and otherwise
(empty directory, file, symlink, device) removes exactly that entry; on
failure the parent map is untouched (no updated map is produced), and on
success every other entry looks up unchanged. -/
theorem remove_dir_not_empty :
    (∀ (entries sub : List (String × VN)) (name : String),
        childLookup entries name = some (.memDir sub) → sub ≠ [] →
        memRemove (.memDir entries) name = .error .DirectoryNotEmpty) ∧
    (∀ (entries : List (String × VN)) (name : String) (child : VN),
        childLookup entries name = some child →
        (∀ sub, child = .memDir sub → sub = []) →
        memRemove (.memDir entries) name = .ok (.memDir (childErase entries name))) ∧
    (∀ (entries : List (String × VN)) (name k : String), k ≠ name →
        childLookup (childErase entries name) k = childLookup entries k) := by
  refine ⟨?_, ?_, ?_⟩
  · intro entries sub name hl hne
    simp [memRemove, hl, List.isEmpty_iff, hne]
  · intro entries name child hl hempty
    simp only [memRemove, hl]
    match child, hl with
    | .memDir sub, hl =>
        have : sub = [] := hempty sub rfl
        simp [this]
    | .memFile d mt, hl => rfl
    | .memSymlink t, hl => rfl
    | .memDevice a b c, hl => rfl
    | .kernDir es, hl => rfl
  · intro entries name k hk
    have hnk : ¬(name = k) := fun h => hk h.symm
    induction entries with
    | nil => rfl
    | cons a rest ih =>
      obtain ⟨ka, va⟩ := a
      by_cases hka : ka = name
      · have hkak : ¬(ka = k) := fun h => hk ((hka.symm.trans h).symm)
        simp [childErase, childLookup, hka, hkak, hnk]
      · by_cases hkk : ka = k
        · simp [childErase, childLookup, hka, hkk, hk]
        · simp [childErase, childLookup, hka, hkk, ih]

/-- C6 witness: removing the non-empty subdirectory `d` fails with
`DirectoryNotEmpty`; removing the file `e` succeeds and leaves `d` intact. -/
theorem remove_dir_not_empty_witness :
    (childLookup removeParentEntries "d" = some (.memDir [("x", chainFile)]) ∧
     memRemove (.memDir removeParentEntries) "d" = .error .DirectoryNotEmpty) ∧
    (childLookup removeParentEntries "e" = some chainFile ∧
     memRemove (.memDir removeParentEntries) "e" =
       .ok (.memDir (childErase removeParentEntries "e")) ∧
     childLookup (childErase removeParentEntries "e") "d" =
       childLookup removeParentEntries "d") :=
  ⟨⟨rfl,
    remove_dir_not_empty.1 removeParentEntries [("x", chainFile)] "d" rfl
      (List.cons_ne_nil _ _)⟩,
   ⟨rfl,
    remove_dir_not_empty.2.1 removeParentEntries "e" chainFile rfl
      (fun sub h => by cases h),
    remove_dir_not_empty.2.2 removeParentEntries "e" "d" (by decide)⟩⟩

/-- C7 counterexample: `/dev0` names a Device inode; the claim says opening
it through the Vfs facade's `open()` also yields a handle, but `Vfs::open`
insists on `node_type() == File` and rejects the device path with `NotAFile`
even though opening the inode directly succeeds. -/
theorem vfs_open_rejects_device :
    vfsLookup devVfs "/dev0" = .ok (.memDevice 1 2 .Char) ∧
    vnNodeType (.memDevice 1 2 .Char) = .Device ∧
    vnOpen dmWith (.memDevice 1 2 .Char) = .ok (.dev devC) ∧
    vfsOpen dmWith devVfs "/dev0" = .error .NotAFile :=
  ⟨rfl, rfl, rfl, rfl⟩

/-- C7 (amended): direct `open()` on a File inode yields a `MemFile` handle
with cursor 0 referencing the inode's shared buffer, and the same handle
comes back when a path naming the file is opened through `Vfs::open`;
direct `open()` on a Device inode re-resolves the device and yields a
cursor-less device handle, while `Vfs::open` on a path naming a Device node
fails with `NotAFile` (it requires `node_type() == File`). -/
theorem open_handles_fresh_cursor :
    (∀ (dm : DeviceManager) (data : List Nat) (meta : Metadata),
        vnOpen dm (.memFile data meta) =
          .ok (.mem { cursor := 0, hmeta := meta } data)) ∧
    (∀ (dm : DeviceManager) (v : Vfs) (p : String) (data : List Nat) (meta : Metadata),
        vfsLookup v p = .ok (.memFile data meta) →
        vfsOpen dm v p = .ok (.mem { cursor := 0, hmeta := meta } data)) ∧
    (∀ (dm : DeviceManager) (major minor : Nat) (dt : DeviceType) (d : DeviceModel),
        dmLookup dm major minor = some d → d.dtype = dt → d.openErr = none →
        vnOpen dm (.memDevice major minor dt) = .ok (.dev d)) ∧
    (∀ (dm : DeviceManager) (v : Vfs) (p : String) (n : VN),
        vfsLookup v p = .ok n → vnNodeType n = .Device →
        vfsOpen dm v p = .error .NotAFile) := by
  refine ⟨fun _ _ _ => rfl, ?_, ?_, ?_⟩
  · intro dm v p data meta hl
    simp [vfsOpen, hl, vnNodeType, vnOpen]
  · intro dm major minor dt d hd hty hopen
    simp [vnOpen, hd, hty, hopen]
  · intro dm v p n hl hty
    have : vnNodeType n ≠ .File := by rw [hty]; decide
    simp [vfsOpen, hl, this]

/-- C7 witness: the amended behavior at the concrete fixtures — a file
opened through the facade, and a device opened directly. -/
theorem open_handles_fresh_cursor_witness :
    (vfsLookup symVfs "/b" = .ok (.memFile [] (createMetadata .File 0)) ∧
     vfsOpen dmWith symVfs "/b" =
       .ok (.mem { cursor := 0, hmeta := createMetadata .File 0 } [])) ∧
    (dmLookup dmWith 1 2 = some devC ∧
     vnOpen dmWith (.memDevice 1 2 .Char) = .ok (.dev devC)) :=
  ⟨⟨rfl, open_handles_fresh_cursor.2.1 dmWith symVfs "/b" [] (createMetadata .File 0) rfl⟩,
   ⟨rfl, open_handles_fresh_cursor.2.2.1 dmWith 1 2 .Char devC rfl rfl rfl⟩⟩

/-- C8 counterexample: after a successful `open()` under a manager holding
(1, 2), a read through the resulting handle with the device *unregistered*
still succeeds using the captured device — the claim's re-resolving read
(modelled from the spec as `specDeviceRead`) would fail `DeviceNotFound`. -/
theorem device_read_not_reresolved :
    vnOpen dmWith (.memDevice 1 2 .Char) = .ok (.dev devC) ∧
    specDeviceRead dmEmpty 1 2 .Char = .error .DeviceNotFound ∧
    memDeviceFileRead devC = .ok 5 ∧
    memDeviceFileRead devC ≠ specDeviceRead dmEmpty 1 2 .Char :=
  ⟨rfl, rfl, rfl, by decide⟩

/-- C8 (amended): `open()` on a Device inode re-resolves the device by the
stored (major, minor) pair, failing `DeviceNotFound` when absent (a variant
`memfs.rs` names even though the `vfs.rs` enum omits it), failing
`InvalidArgument` when the stored expected type differs from the live
device's type, and propagating `device.open()` failures as `DeviceError`;
reads through the resulting handle use the device captured at open time
(succeeding with its read result for char devices) and do not consult the
Device Manager again. -/
theorem device_open_reresolves :
    (∀ (dm : DeviceManager) (major minor : Nat) (dt : DeviceType),
        dmLookup dm major minor = none →
        vnOpen dm (.memDevice major minor dt) = .error .DeviceNotFound) ∧
    (∀ (dm : DeviceManager) (major minor : Nat) (dt : DeviceType) (d : DeviceModel),
        dmLookup dm major minor = some d → d.dtype ≠ dt →
        vnOpen dm (.memDevice major minor dt) = .error .InvalidArgument) ∧
    (∀ (dm : DeviceManager) (major minor : Nat) (dt : DeviceType)
        (d : DeviceModel) (e : DeviceError),
        dmLookup dm major minor = some d → d.dtype = dt → d.openErr = some e →
        vnOpen dm (.memDevice major minor dt) = .error (.DeviceError e)) ∧
    (∀ (d : DeviceModel) (n : Nat), d.dtype = .Char → d.readRes = .ok n →
        memDeviceFileRead d = .ok n) := by
  refine ⟨?_, ?_, ?_, ?_⟩
  · intro dm major minor dt hd
    simp [vnOpen, hd]
  · intro dm major minor dt d hd hty
    simp [vnOpen, hd, hty]
  · intro dm major minor dt d e hd hty hopen
    simp [vnOpen, hd, hty, hopen]
  · intro d n hty hr
    simp [memDeviceFileRead, hty, hr]

/-- C8 witness: the amended behavior at concrete managers — absent device,
type mismatch, and a read through a captured char device. -/
theorem device_open_reresolves_witness :
    (dmLookup dmEmpty 1 2 = none ∧
     vnOpen dmEmpty (.memDevice 1 2 .Char) = .error .DeviceNotFound) ∧
    (dmLookup dmWith 1 2 = some devC ∧ devC.dtype ≠ .Block ∧
     vnOpen dmWith (.memDevice 1 2 .Block) = .error .InvalidArgument) ∧
    (devC.dtype = .Char ∧ devC.readRes = .ok 5 ∧
     memDeviceFileRead devC = .ok 5) :=
  ⟨⟨rfl, device_open_reresolves.1 dmEmpty 1 2 .Char rfl⟩,
   ⟨rfl, by decide, device_open_reresolves.2.1 dmWith 1 2 .Block devC rfl (by decide)⟩,
   ⟨rfl, rfl, device_open_reresolves.2.2.2 devC 5 rfl rfl⟩⟩

/-- C9: for a `rename_move` whose source and target parent paths differ,
after both parents resolve: a missing source entry fails `NotFound`, an
occupied target name fails `AlreadyExists`, and otherwise the move fails
`NotImplemented` when either parent is not a concrete `MemVNode`, while two
`MemVNode` directory parents have the entry moved from one map to the
other. -/
theorem rename_move_cross_directory
    (v : Vfs) (oldPath newPath oldParentPath oldName newParentPath newName : String)
    (oldParent newParent : VN)
    (hsp1 : splitPath oldPath = .ok (oldParentPath, oldName))
    (hsp2 : splitPath newPath = .ok (newParentPath, newName))
    (hlk1 : vfsLookup v oldParentPath = .ok oldParent)
    (hlk2 : vfsLookup v newParentPath = .ok newParent)
    (hne : oldParentPath ≠ newParentPath) :
    ((vnLookup oldParent oldName).isOk = false →
        vfsRenameMove v oldPath newPath = .error .NotFound) ∧
    ((vnLookup oldParent oldName).isOk = true →
        (vnLookup newParent newName).isOk = true →
        vfsRenameMove v oldPath newPath = .error .AlreadyExists) ∧
    ((vnLookup oldParent oldName).isOk = true →
        (vnLookup newParent newName).isOk = false →
        (isMemVNode oldParent = false ∨ isMemVNode newParent = false) →
        vfsRenameMove v oldPath newPath = .error .NotImplemented) ∧
    (∀ (se te : List (String × VN)) (node : VN),
        oldParent = .memDir se → newParent = .memDir te →
        childLookup se oldName = some node →
        childLookup te newName = none →
        vfsRenameMove v oldPath newPath =
          .ok (.moved (.memDir (childErase se oldName))
                      (.memDir (childInsert te newName node)))) := by
  refine ⟨?_, ?_, ?_, ?_⟩
  · intro hmiss
    simp [vfsRenameMove, hsp1, hsp2, hlk1, hlk2, hmiss]
  · intro hsrc htgt
    simp [vfsRenameMove, hsp1, hsp2, hlk1, hlk2, hsrc, htgt]
  · intro hsrc htgt hnm
    rcases hnm with hnm | hnm <;>
      simp [vfsRenameMove, hsp1, hsp2, hlk1, hlk2, hsrc, htgt, hne, hnm]
  · intro se te node hop hnp hsl htl
    subst hop; subst hnp
    have hsrc : (vnLookup (VN.memDir se) oldName).isOk = true := by
      simp [vnLookup, hsl, Except.isOk, Except.toBool]
    have htgt : (vnLookup (VN.memDir te) newName).isOk = false := by
      simp [vnLookup, htl, Except.isOk, Except.toBool]
    simp [vfsRenameMove, hsp1, hsp2, hlk1, hlk2, hsrc, htgt, hne,
      isMemVNode, memMoveNode, hsl, htl]

/-- C9 witness: in `moveVfs`, moving `/a/x` to `/k/y` (a non-MemVNode
parent) fails `NotImplemented`, and moving `/a/x` to `/b/y` (two MemVNode
parents) moves the entry. -/
theorem rename_move_cross_directory_witness :
    (splitPath "/a/x" = .ok ("a", "x") ∧
     splitPath "/k/y" = .ok ("k", "y") ∧
     vfsLookup moveVfs "a" = .ok (.memDir [("x", chainFile)]) ∧
     vfsLookup moveVfs "k" = .ok (.kernDir []) ∧
     vfsRenameMove moveVfs "/a/x" "/k/y" = .error .NotImplemented) ∧
    (splitPath "/b/y" = .ok ("b", "y") ∧
     vfsLookup moveVfs "b" = .ok (.memDir []) ∧
     vfsRenameMove moveVfs "/a/x" "/b/y" =
       .ok (.moved (.memDir (childErase [("x", chainFile)] "x"))
                   (.memDir (childInsert [] "y" chainFile)))) :=
  ⟨⟨rfl, rfl, rfl, rfl,
    (rename_move_cross_directory moveVfs "/a/x" "/k/y" "a" "x" "k" "y"
        (.memDir [("x", chainFile)]) (.kernDir []) rfl rfl rfl rfl
        (by decide)).2.2.1 rfl rfl (Or.inr rfl)⟩,
   ⟨rfl, rfl,
    (rename_move_cross_directory moveVfs "/a/x" "/b/y" "a" "x" "b" "y"
        (.memDir [("x", chainFile)]) (.memDir []) rfl rfl rfl rfl
        (by decide)).2.2.2 [("x", chainFile)] [] chainFile rfl rfl rfl rfl⟩⟩

/-- C10: the root `MemFs` mounts as a `Dir`, and for every Vfs whose global
root and mount roots are not symlink nodes (as holds for every tree this
repository's filesystems can mount), a successful lookup never returns a
node of type `SymLink`: every looked-up component, the final one included,
passes through symlink resolution, and only the bare global root is
returned unchecked. -/
theorem lookup_never_returns_symlink :
    vnNodeType memfsMount = .Dir ∧
    ∀ (v : Vfs), vnNodeType v.root ≠ .SymLink →
      (∀ mp ∈ v.mounts, vnNodeType mp.root ≠ .SymLink) →
      ∀ (p : String) (n : VN), vfsLookup v p = .ok n →
        vnNodeType n ≠ .SymLink :=
  ⟨rfl, fun v h1 h2 p n h => pathToVnodeG_no_symlink 9 v h1 h2 p n h⟩

/-- C10 witness: in `symVfs`, looking up the symlink path `/a` returns the
resolved target file, not the symlink node. -/
theorem lookup_never_returns_symlink_witness :
    vnNodeType symVfs.root ≠ .SymLink ∧
    vfsLookup symVfs "/a" = .ok chainFile ∧
    vnNodeType chainFile ≠ .SymLink :=
  ⟨by decide, rfl,
   lookup_never_returns_symlink.2 symVfs (by decide)
     (fun mp hmp => absurd hmp (List.not_mem_nil mp)) "/a" chainFile rfl⟩

end ProkaVfs
